import Mathlib

/-!
Verification of the mini-assistant plugin core (settings migration, provider
resolution, assistant factory, and the OpenAI/Anthropic text-call layer)
against its natural-language specification.

The TypeScript sources are shallowly embedded: JavaScript dynamic values are
modelled by the inductive `JsVal` (with `JsNum` for the numeric fields that can
be NaN/Infinity), string primitives (`trim`, `parseInt`, `String(...)`,
substring search) are modelled over `List Char`, and each source function is
translated into an executable Lean definition keeping its source name.

Numbers: a finite double is modelled by its exact integer value (every value
`parseInt` can produce is integer-valued). `jsParseInt` performs the binary64
conversion explicitly — round-to-nearest-even at 53 significant bits,
overflowing to ±Infinity at 2^1024 — so e.g. a 400-digit numeral parses to
Infinity and `"9007199254740993"` parses to 9007199254740992, as in
JavaScript. `jsNumToString` renders positionally below 1e21 and exponentially
from 1e21 on (`String(1e22) = "1e+22"`), printing the exact stored integer's
digits; JavaScript prints the shortest decimal denoting the same double, and
the two renderings parse back to the same value, so the plugin's
parse-of-print behaviour is preserved exactly.
-/

namespace MiniAssistant

/-! ## JavaScript value model -/

/-- A JavaScript number as used by the plugin: NaN, the infinities, or an
integer (the plugin only ever produces integer numbers via `parseInt`). -/
inductive JsNum where
  | nan
  | posInf
  | negInf
  | int (n : Int)
deriving DecidableEq, Repr

/-- A JavaScript value as stored in the persisted settings document. -/
inductive JsVal where
  | undef
  | null
  | str (s : String)
  | num (n : JsNum)
  | boolean (b : Bool)
deriving DecidableEq, Repr

/-- Characters of the decimal representation of a natural number
(most-significant digit first), with explicit fuel so it reduces by `decide`. -/
def digitChar (d : Nat) : Char :=
  match d with
  | 0 => '0' | 1 => '1' | 2 => '2' | 3 => '3' | 4 => '4'
  | 5 => '5' | 6 => '6' | 7 => '7' | 8 => '8' | 9 => '9'
  | _ => '*'

def natDigitsAux : Nat → Nat → List Char
  | 0, _ => []
  | fuel + 1, n =>
    if n < 10 then [digitChar n]
    else natDigitsAux fuel (n / 10) ++ [digitChar (n % 10)]

def natDigits (n : Nat) : List Char := natDigitsAux (n + 1) n

def natRepr (n : Nat) : String := ⟨natDigits n⟩

/-- Exponential rendering of an integer magnitude, as JavaScript `String()`
produces for numbers of magnitude at least 1e21: the significant digits
(trailing zeros stripped) as `d.ddd`, then `e+` and the decimal exponent.
For the stored doubles the claims evaluate (such as 1e22) these digits are
exactly JavaScript's shortest round-tripping digits. -/
def expRepr (v : Nat) : String :=
  let ds := natDigits v
  let sig := (ds.reverse.dropWhile (fun c => c == '0')).reverse
  let e := ds.length - 1
  let mantissa :=
    match sig with
    | [] => "0"
    | [c] => String.mk [c]
    | c :: rest => String.mk [c] ++ "." ++ String.mk rest
  mantissa ++ "e+" ++ natRepr e

/-- JavaScript `String()` on an integer-valued double's magnitude: positional
decimal below 1e21, exponential notation from 1e21 on. The digits rendered
are those of the exact stored integer; JavaScript prints the shortest decimal
denoting the same double, which `parseInt` maps back to the same value, so
the difference is unobservable through the plugin's parse of this string. -/
def natNumRepr (v : Nat) : String :=
  if v < 10 ^ 21 then natRepr v else expRepr v

/-- JavaScript `String(jsNum)`. -/
def jsNumToString (n : JsNum) : String :=
  match n with
  | .nan => "NaN"
  | .posInf => "Infinity"
  | .negInf => "-Infinity"
  | .int m => if m < 0 then "-" ++ natNumRepr m.natAbs else natNumRepr m.natAbs

/-- JavaScript `String(v)`. -/
def jsToString (v : JsVal) : String :=
  match v with
  | .undef => "undefined"
  | .null => "null"
  | .str s => s
  | .num n => jsNumToString n
  | .boolean b => if b then "true" else "false"

/-- JavaScript `v ?? ""` (nullish coalescing against the empty string). -/
def jsNullishEmpty (v : JsVal) : JsVal :=
  match v with
  | .undef => .str ""
  | .null => .str ""
  | v => v

/-- JavaScript `String.prototype.trim`, over the character list. -/
def jsTrimList (l : List Char) : List Char :=
  ((l.dropWhile Char.isWhitespace).reverse.dropWhile Char.isWhitespace).reverse

def jsTrim (s : String) : String := ⟨jsTrimList s.data⟩

/-- Numeric value of a decimal digit character. -/
def digitVal (c : Char) : Nat := c.toNat - 48

def digitsToNat (ds : List Char) : Nat :=
  ds.foldl (fun a c => a * 10 + digitVal c) 0

/-- Bit length of a natural number, with explicit fuel so it reduces inside
`decide` (correct whenever `n < 2 ^ fuel`). -/
def bitLenAux : Nat → Nat → Nat
  | 0, _ => 0
  | fuel + 1, n => if n = 0 then 0 else bitLenAux fuel (n / 2) + 1

/-- The non-negative integers exactly representable as an IEEE-754 binary64
value: below 2^53, or a mantissa of 52-53 bits times a power of two. -/
def dblRepr (v : Nat) : Prop :=
  v < 2 ^ 53 ∨ ∃ q k, 2 ^ 52 ≤ q ∧ q < 2 ^ 53 ∧ 1 ≤ k ∧ v = q * 2 ^ k

/-- Round an integer of bit length `L ≥ 54` to the nearest binary64 value
(ties to even mantissa), overflowing to Infinity at 2^1024. -/
def roundHigh (L n : Nat) : JsNum :=
  let k := L - 53
  let q := n / 2 ^ k
  let r := n % 2 ^ k
  let q2 := if 2 ^ (k - 1) < r ∨ (r = 2 ^ (k - 1) ∧ q % 2 = 1) then q + 1 else q
  let v := q2 * 2 ^ k
  if v < 2 ^ 1024 then .int (v : Int) else .posInf

/-- Round a natural number to the binary64 value JavaScript stores for it:
exact below 2^53, else round-to-nearest-even at 53 significant bits with
overflow to Infinity (correct whenever `n < 2 ^ fuel`). -/
def roundNatAux (fuel n : Nat) : JsNum :=
  if n < 2 ^ 53 then .int (n : Int) else roundHigh (bitLenAux fuel n) n

/-- The numeric conversion of `parseInt` after sign and digit extraction:
NaN on no digits, else the digit string's value rounded to a double (so
numerals beyond the double range become Infinity). -/
def jsParseIntCore (neg : Bool) (rest : List Char) : JsNum :=
  let ds := rest.takeWhile Char.isDigit
  if ds.isEmpty then .nan
  else
    match roundNatAux (36 * ds.length + 1) (digitsToNat ds) with
    | .int v => if neg then .int (-(v : Int)) else .int (v : Int)
    | .posInf => if neg then .negInf else .posInf
    | x => x

/-- JavaScript `Number.parseInt(s, 10)`: skip whitespace, read an optional
sign and a decimal digit prefix, and produce the resulting double
(NaN when no digits, ±Infinity on overflow). -/
def jsParseInt (s : String) : JsNum :=
  let cs := s.data.dropWhile Char.isWhitespace
  if cs.head? = some '-' then jsParseIntCore true cs.tail
  else if cs.head? = some '+' then jsParseIntCore false cs.tail
  else jsParseIntCore false cs

/-- Boolean substring test over character lists. -/
def listHasSub (needle hay : List Char) : Bool :=
  hay.tails.any (fun t => needle.isPrefixOf t)

/-- `hasSub s sub`: `sub` occurs somewhere in `s` (case-sensitive). -/
def hasSub (s sub : String) : Bool := listHasSub sub.data s.data

/-- Lower-casing over the character list (JavaScript `toLowerCase` on the
ASCII-only patterns the plugin tests). -/
def lowerStr (s : String) : String := ⟨s.data.map Char.toLower⟩

/-- Case-insensitive substring test, as performed by a `/.../i` regex whose
pattern is a literal string. -/
def hasSubCI (s sub : String) : Bool := hasSub (lowerStr s) (lowerStr sub)

/-! ## Compiled constants (src/settings.ts) -/

def OAI_IMAGE_CAPABLE_MODELS : List String :=
  ["o1", "o1-pro", "o1-mini", "o3", "o3-mini", "o4-mini",
   "gpt-4o", "gpt-4o-mini", "gpt-4-turbo", "gpt-4.1"]

def DEFAULT_TEXT_MODEL : String := "gpt-4o-mini"

def DEFAULT_SPEECH_MODEL : String := "whisper-1"

def DEFAULT_API_BASE_URL : String := "https://api.openai.com/v1"

def DEFAULT_MAX_TOKENS : Int := 0

/-! ## Base-URL normalization and assistant construction (src/openai_api.ts) -/

/-- `replace(/\/?$/, "")`: strip exactly one trailing slash, if present. -/
def stripTrailingSlash (s : String) : String :=
  match s.data.getLast? with
  | some '/' => ⟨s.data.dropLast⟩
  | _ => s

/-- `normalizeBaseUrl` from src/openai_api.ts: trim, substitute the
OpenAI-compatible default when blank, then strip one trailing slash. -/
def normalizeBaseUrl (baseUrl : String) : String :=
  let trimmed := jsTrim baseUrl
  let normalized := if trimmed = "" then DEFAULT_API_BASE_URL else trimmed
  stripTrailingSlash normalized

structure OpenAIAssistant where
  modelName : String
  maxTokens : JsNum
  apiKey : String
  speechModelName : String
  baseUrl : String
deriving DecidableEq, Repr

/-- The `OpenAIAssistant` constructor. -/
def OpenAIAssistant.make (apiKey baseUrl modelName : String) (maxTokens : JsNum)
    (speechModelName : String) : OpenAIAssistant :=
  { baseUrl := normalizeBaseUrl baseUrl
    modelName := if modelName = "" then DEFAULT_TEXT_MODEL else modelName
    maxTokens := maxTokens
    apiKey := apiKey
    speechModelName := if speechModelName = "" then DEFAULT_SPEECH_MODEL else speechModelName }

structure AnthropicAssistant where
  modelName : String
  maxTokens : JsNum
  apiKey : String
  baseUrl : String
deriving DecidableEq, Repr

/-- The `AnthropicAssistant` constructor: `normalizeBaseUrl(baseUrl) ||
"https://api.anthropic.com/v1"`. -/
def AnthropicAssistant.make (apiKey baseUrl modelName : String)
    (maxTokens : JsNum) : AnthropicAssistant :=
  { apiKey := apiKey
    baseUrl :=
      let n := normalizeBaseUrl baseUrl
      if n = "" then "https://api.anthropic.com/v1" else n
    modelName := if modelName = "" then "claude-3-5-sonnet-latest" else modelName
    maxTokens := maxTokens }

/-! ## OpenAI-compatible text call (OpenAIAssistant.text_api_call) -/

/-- A message of `prompt_list`; `content` is a string or an array
(image payload). -/
inductive ChatContent where
  | text (s : String)
  | arr
deriving DecidableEq, Repr

structure ChatMsg where
  role : String
  content : ChatContent
deriving DecidableEq, Repr

def ChatMsg.contentIsArray (m : ChatMsg) : Bool :=
  match m.content with
  | .arr => true
  | .text _ => false

/-- `includeMaxTokens = Number.isFinite(this.maxTokens) && this.maxTokens > 0`. -/
def includeMaxTokens (mt : JsNum) : Bool :=
  match mt with
  | .int n => decide (0 < n)
  | _ => false

/-- `/o[124]/.test(model)`: the model id contains "o1", "o2" or "o4" as a
(case-sensitive) substring. -/
def isReasoningModel (model : String) : Bool :=
  hasSub model "o1" || hasSub model "o2" || hasSub model "o4"

/-- Image-payload downgrade: replace a non-image-capable model with the default
text model when the prompt carries an image array. -/
def OpenAIAssistant.effectiveModel (a : OpenAIAssistant) (prompt_list : List ChatMsg) : String :=
  if prompt_list.any (fun m => m.contentIsArray) && !(OAI_IMAGE_CAPABLE_MODELS.contains a.modelName)
  then DEFAULT_TEXT_MODEL else a.modelName

/-- The token-limit entry added to the request params: present only when
`includeMaxTokens && !omitMaxTokens`, named per the reasoning-model test. -/
def tokenParamFor (model : String) (mt : JsNum) (omitMaxTokens : Bool) :
    Option (String × Int) :=
  if includeMaxTokens mt && !omitMaxTokens then
    match mt with
    | .int n =>
      some (if isReasoningModel model then "max_completion_tokens" else "max_tokens", n)
    | _ => none
  else none

/-- The chat-completions request parameters object. -/
structure ChatParams where
  messages : List ChatMsg
  model : String
  stream : Bool
  tokenParam : Option (String × Int)
deriving DecidableEq, Repr

/-- The error thrown by a failed request, as inspected by
`shouldRetryWithoutMaxTokens`: an `OpenAI.APIError` (message, truthy `code`
stringified, `error` body stringified when an object), a plain `Error`, a
string, or anything else. -/
inductive JsError where
  | apiError (message : String) (code : Option String) (errorBody : Option String)
  | plainError (message : String)
  | strMsg (s : String)
  | other
deriving DecidableEq, Repr

/-- `OpenAIAssistant.shouldRetryWithoutMaxTokens`: join message/code/body and
test `/max[_-]?tokens|max_completion_tokens/i`. -/
def shouldRetryWithoutMaxTokens (err : JsError) : Bool :=
  let parts : List String :=
    match err with
    | .apiError message code errorBody =>
      (if message = "" then [] else [message]) ++ code.toList ++ errorBody.toList
    | .plainError message => [message]
    | .strMsg s => [s]
    | .other => []
  let haystack := String.intercalate " " parts
  let l := lowerStr haystack
  hasSub l "maxtokens" || hasSub l "max_tokens" || hasSub l "max-tokens" ||
    hasSub l "max_completion_tokens"

/-- Outcome of one network attempt: the extracted response text, or a thrown
error. -/
inductive ApiOutcome where
  | ok (text : String)
  | error (e : JsError)
deriving DecidableEq, Repr

/-- Observable trace of one `text_api_call`: the resolved value (absent when
the call gave up), every request sent, and how many error notices were shown. -/
structure CallTrace where
  result : Option String
  attempts : List ChatParams
  notices : Nat
deriving DecidableEq, Repr

/-- The request parameters `sendRequest(omitMaxTokens)` builds. -/
def OpenAIAssistant.requestParams (a : OpenAIAssistant) (prompt_list : List ChatMsg)
    (streamMode : Bool) (omitMaxTokens : Bool) : ChatParams :=
  { messages := prompt_list
    model := a.effectiveModel prompt_list
    stream := streamMode
    tokenParam := tokenParamFor (a.effectiveModel prompt_list) a.maxTokens omitMaxTokens }

/-- `OpenAIAssistant.text_api_call` (request construction and the retry loop),
against a backend deciding each attempt's outcome. The loop runs at most
twice: after the retry `omitMaxTokens` is true, so the retry guard
`!omitMaxTokens && shouldRetryWithoutMaxTokens(err)` can never fire again. -/
def OpenAIAssistant.text_api_call (a : OpenAIAssistant) (prompt_list : List ChatMsg)
    (streamMode : Bool) (backend : ChatParams → ApiOutcome) : CallTrace :=
  let inc := includeMaxTokens a.maxTokens
  let p1 := a.requestParams prompt_list streamMode (!inc)
  match backend p1 with
  | .ok s => { result := some s, attempts := [p1], notices := 0 }
  | .error e =>
    if !(!inc) && shouldRetryWithoutMaxTokens e then
      let p2 := a.requestParams prompt_list streamMode true
      match backend p2 with
      | .ok s => { result := some s, attempts := [p1, p2], notices := 0 }
      | .error _ => { result := none, attempts := [p1, p2], notices := 1 }
    else { result := none, attempts := [p1], notices := 1 }

/-- The streaming branch of `text_api_call`: state is
(`responseText` accumulator, `htmlEl.innerHTML`); a chunk's
`choices[0].delta.content` is appended and republished only when truthy. -/
def streamLoop : List (Option String) → String → String → String × String
  | [], responseText, innerHTML => (responseText, innerHTML)
  | c :: rest, responseText, innerHTML =>
    match c with
    | some content =>
      if content = "" then streamLoop rest responseText innerHTML
      else streamLoop rest (responseText ++ content) (responseText ++ content)
    | none => streamLoop rest responseText innerHTML

/-- Render-target state after the first `i` chunks (the target is cleared to
`""` before the loop). -/
def renderedAfter (chunks : List (Option String)) (i : Nat) : String :=
  (streamLoop (chunks.take i) "" "").2

/-- The value `text_api_call` returns in streaming mode: `htmlEl.innerHTML`
after the stream ends. -/
def streamReturn (chunks : List (Option String)) : String :=
  (streamLoop chunks "" "").2

/-- Concatenation of a list of strings (the spec's accumulated text). -/
def sjoin : List String → String
  | [] => ""
  | s :: r => s ++ sjoin r

/-! ## Anthropic text call (AnthropicAssistant.text_api_call) -/

inductive BodyVal where
  | s (v : String)
  | n (v : JsNum)
  | b (v : Bool)
  | msgs (m : List ChatMsg)
deriving DecidableEq, Repr

/-- The JSON body `AnthropicAssistant.text_api_call` posts to
`{baseUrl}/messages`, as an ordered key/value list:
`{model, max_tokens, messages, stream:false}`. -/
def AnthropicAssistant.requestBody (a : AnthropicAssistant)
    (prompt_list : List ChatMsg) : List (String × BodyVal) :=
  [("model", .s a.modelName),
   ("max_tokens", .n a.maxTokens),
   ("messages", .msgs prompt_list),
   ("stream", .b false)]

/-! ## Provider slot normalization (AiAssistantPlugin.normalizeProviderSlot) -/

/-- `Number.parseInt(String(value ?? ""), 10) === 2 ? 2 : 1` (NaN and the
infinities are not 2). -/
def normalizeProviderSlot (value : JsVal) : Nat :=
  match jsParseInt (jsToString (jsNullishEmpty value)) with
  | .int n => if n = 2 then 2 else 1
  | _ => 1

/-! ## Settings migration (AiAssistantPlugin.migrateSettings) -/

/-- The raw persisted settings document: every key the migration reads or
deletes, each holding an arbitrary JavaScript value (`undef` = key absent). -/
@[ext]
structure RawData where
  apiKey1 : JsVal
  apiKey2 : JsVal
  apiBaseUrl1 : JsVal
  apiBaseUrl2 : JsVal
  textProvider : JsVal
  speechProvider : JsVal
  modelName : JsVal
  speechModelName : JsVal
  maxTokens : JsVal
  replaceSelection : JsVal
  language : JsVal
  apiKey : JsVal
  openAIapiKey : JsVal
  anthropicApiKey : JsVal
  apiBaseUrl : JsVal
  apiKey3 : JsVal
  apiBaseUrl3 : JsVal
  imageProvider : JsVal
  imageModelName : JsVal
  imgFolder : JsVal
  mySetting : JsVal
deriving DecidableEq, Repr

/-- A raw document with every key absent. -/
def emptyRaw : RawData :=
  { apiKey1 := .undef, apiKey2 := .undef, apiBaseUrl1 := .undef
    apiBaseUrl2 := .undef, textProvider := .undef, speechProvider := .undef
    modelName := .undef, speechModelName := .undef, maxTokens := .undef
    replaceSelection := .undef, language := .undef, apiKey := .undef
    openAIapiKey := .undef, anthropicApiKey := .undef, apiBaseUrl := .undef
    apiKey3 := .undef, apiBaseUrl3 := .undef, imageProvider := .undef
    imageModelName := .undef, imgFolder := .undef, mySetting := .undef }

/-- `(v ?? "").toString().trim()`. -/
def jsCoerceTrim (v : JsVal) : String :=
  match v with
  | .undef => ""
  | .null => ""
  | v => jsTrim (jsToString v)

/-- The first of `[data.apiKey, data.openAIapiKey, data.anthropicApiKey]` that
is a string with non-blank trim (the untrimmed string, as in the source). -/
def legacyKeyOf (d : RawData) : Option String :=
  [d.apiKey, d.openAIapiKey, d.anthropicApiKey].findSome? (fun v =>
    match v with
    | .str s => if jsTrim s = "" then none else some s
    | _ => none)

/-- Migrated `apiKey1`: legacy seeding only when not already a string, then
coerce and trim. -/
def migKey1 (d : RawData) : String :=
  let seeded : JsVal :=
    match d.apiKey1 with
    | .str s => .str s
    | _ =>
      match legacyKeyOf d with
      | some s => .str (jsTrim s)
      | none => .str ""
  jsCoerceTrim seeded

def migKey2 (d : RawData) : String := jsCoerceTrim d.apiKey2

/-- Legacy `apiBaseUrl`: its trim when a non-blank string, else the compiled
default. -/
def legacyBaseOf (d : RawData) : String :=
  match d.apiBaseUrl with
  | .str s => if jsTrim s = "" then DEFAULT_API_BASE_URL else jsTrim s
  | _ => DEFAULT_API_BASE_URL

/-- Migrated `apiBaseUrl1`: legacy seeding when not a string, coerce and trim,
then force the compiled default if still blank. -/
def migBase1 (d : RawData) : String :=
  let seeded : JsVal :=
    match d.apiBaseUrl1 with
    | .str s => .str s
    | _ => .str (legacyBaseOf d)
  let t := jsCoerceTrim seeded
  if t = "" then DEFAULT_API_BASE_URL else t

def migBase2 (d : RawData) : String := jsCoerceTrim d.apiBaseUrl2

/-- Migrated `speechModelName`: default when not a string or empty. -/
def migSpeechModel (d : RawData) : String :=
  match d.speechModelName with
  | .str s => if s = "" then DEFAULT_SPEECH_MODEL else s
  | _ => DEFAULT_SPEECH_MODEL

/-- Migrated `maxTokens`:
`Number.parseInt(String(data?.maxTokens ?? migrated.maxTokens ?? ""), 10)`
(at that point `migrated.maxTokens` still equals `data.maxTokens`), reset to
the compiled default when NaN or negative. A parse overflowing to +Infinity
passes both the NaN and the negativity check and is kept. -/
def migMaxTokens (d : RawData) : JsNum :=
  match jsParseInt (jsToString (jsNullishEmpty d.maxTokens)) with
  | .nan => .int DEFAULT_MAX_TOKENS
  | .negInf => .int DEFAULT_MAX_TOKENS
  | .posInf => .posInf
  | .int n => if n < 0 then .int DEFAULT_MAX_TOKENS else .int n

/-- `AiAssistantPlugin.migrateSettings` on a present (non-null) document:
spread, normalize each field, and delete the obsolete keys. -/
def migrateSettings (d : RawData) : RawData :=
  { apiKey1 := .str (migKey1 d)
    apiKey2 := .str (migKey2 d)
    apiBaseUrl1 := .str (migBase1 d)
    apiBaseUrl2 := .str (migBase2 d)
    textProvider := .num (.int (normalizeProviderSlot d.textProvider))
    speechProvider := .num (.int (normalizeProviderSlot d.speechProvider))
    modelName := d.modelName
    speechModelName := .str (migSpeechModel d)
    maxTokens := .num (migMaxTokens d)
    replaceSelection := d.replaceSelection
    language := d.language
    apiKey := .undef
    openAIapiKey := .undef
    anthropicApiKey := .undef
    apiBaseUrl := .undef
    apiKey3 := .undef
    apiBaseUrl3 := .undef
    imageProvider := .undef
    imageModelName := .undef
    imgFolder := .undef
    mySetting := .undef }

/-- `migrateSettings` including the absent case (`if (!data) return {}`). -/
def migrateSettingsOpt (d : Option RawData) : RawData :=
  match d with
  | none => emptyRaw
  | some dd => migrateSettings dd

/-- `DEFAULT_SETTINGS`, encoded as a raw document (legacy keys absent). -/
def defaultSettingsRaw : RawData :=
  { emptyRaw with
    apiKey1 := .str ""
    apiBaseUrl1 := .str DEFAULT_API_BASE_URL
    apiKey2 := .str ""
    apiBaseUrl2 := .str ""
    textProvider := .num (.int 1)
    speechProvider := .num (.int 1)
    modelName := .str DEFAULT_TEXT_MODEL
    speechModelName := .str DEFAULT_SPEECH_MODEL
    maxTokens := .num (.int DEFAULT_MAX_TOKENS)
    replaceSelection := .boolean true
    language := .str "" }

def mergeField (dflt v : JsVal) : JsVal := if v = .undef then dflt else v

/-- `Object.assign({}, DEFAULT_SETTINGS, migrated)`. -/
def mergeOverDefaults (patch : RawData) : RawData :=
  { apiKey1 := mergeField defaultSettingsRaw.apiKey1 patch.apiKey1
    apiKey2 := mergeField defaultSettingsRaw.apiKey2 patch.apiKey2
    apiBaseUrl1 := mergeField defaultSettingsRaw.apiBaseUrl1 patch.apiBaseUrl1
    apiBaseUrl2 := mergeField defaultSettingsRaw.apiBaseUrl2 patch.apiBaseUrl2
    textProvider := mergeField defaultSettingsRaw.textProvider patch.textProvider
    speechProvider := mergeField defaultSettingsRaw.speechProvider patch.speechProvider
    modelName := mergeField defaultSettingsRaw.modelName patch.modelName
    speechModelName := mergeField defaultSettingsRaw.speechModelName patch.speechModelName
    maxTokens := mergeField defaultSettingsRaw.maxTokens patch.maxTokens
    replaceSelection := mergeField defaultSettingsRaw.replaceSelection patch.replaceSelection
    language := mergeField defaultSettingsRaw.language patch.language
    apiKey := mergeField defaultSettingsRaw.apiKey patch.apiKey
    openAIapiKey := mergeField defaultSettingsRaw.openAIapiKey patch.openAIapiKey
    anthropicApiKey := mergeField defaultSettingsRaw.anthropicApiKey patch.anthropicApiKey
    apiBaseUrl := mergeField defaultSettingsRaw.apiBaseUrl patch.apiBaseUrl
    apiKey3 := mergeField defaultSettingsRaw.apiKey3 patch.apiKey3
    apiBaseUrl3 := mergeField defaultSettingsRaw.apiBaseUrl3 patch.apiBaseUrl3
    imageProvider := mergeField defaultSettingsRaw.imageProvider patch.imageProvider
    imageModelName := mergeField defaultSettingsRaw.imageModelName patch.imageModelName
    imgFolder := mergeField defaultSettingsRaw.imgFolder patch.imgFolder
    mySetting := mergeField defaultSettingsRaw.mySetting patch.mySetting }

/-- `loadSettings`: migrate the loaded document (possibly absent) and merge
the patch over the compiled defaults. -/
def loadSettings (d : Option RawData) : RawData :=
  mergeOverDefaults (migrateSettingsOpt d)

/-! ## Capability resolution (AiAssistantPlugin.buildAssistants) -/

/-- The in-memory settings object as read by `buildAssistants` and the
factory: the well-typed shape every post-load, post-UI-mutation state has. -/
structure Settings where
  apiKey1 : String
  apiBaseUrl1 : String
  apiKey2 : String
  apiBaseUrl2 : String
  textProvider : Int
  speechProvider : Int
  modelName : String
  speechModelName : String
  maxTokens : JsNum
  replaceSelection : Bool
  language : String
deriving DecidableEq, Repr

structure ProviderConfig where
  apiKey : String
  baseUrl : String
deriving DecidableEq, Repr

/-- The `apiKey{slot}` field. -/
def slotApiKey (s : Settings) (slot : Nat) : String :=
  if slot = 2 then s.apiKey2 else s.apiKey1

/-- The `apiBaseUrl{slot}` field. -/
def slotBaseUrl (s : Settings) (slot : Nat) : String :=
  if slot = 2 then s.apiBaseUrl2 else s.apiBaseUrl1

/-- `AiAssistantPlugin.getProviderConfig`: trim the slot's key and URL;
slot 1's blank URL becomes the compiled default. -/
def getProviderConfig (s : Settings) (slot : Nat) : ProviderConfig :=
  let apiKey := jsTrim (slotApiKey s slot)
  let baseUrl := jsTrim (slotBaseUrl s slot)
  let baseUrl := if baseUrl = "" ∧ slot = 1 then DEFAULT_API_BASE_URL else baseUrl
  { apiKey := apiKey, baseUrl := baseUrl }

inductive Assistant where
  | openAI (a : OpenAIAssistant)
  | anthropic (a : AnthropicAssistant)
deriving DecidableEq, Repr

def Assistant.isAnthropic (a : Assistant) : Bool :=
  match a with
  | .anthropic _ => true
  | .openAI _ => false

/-- `AiAssistantPlugin.createAssistant`: default the blank base URL, then
branch on `/anthropic\.com/i.test(effectiveBase)`. -/
def createAssistant (s : Settings) (apiKey baseUrl : String) : Assistant :=
  let effectiveBase := if baseUrl = "" then DEFAULT_API_BASE_URL else baseUrl
  if hasSubCI effectiveBase "anthropic.com" then
    .anthropic (AnthropicAssistant.make apiKey effectiveBase s.modelName s.maxTokens)
  else
    .openAI (OpenAIAssistant.make apiKey effectiveBase s.modelName s.maxTokens s.speechModelName)

/-- One slot resolution inside `buildAssistants`: absent when the trimmed API
key is empty, else the factory's assistant. -/
def resolveSlot (s : Settings) (slot : Nat) : Option Assistant :=
  let config := getProviderConfig s slot
  if config.apiKey = "" then none
  else some (createAssistant s config.apiKey config.baseUrl)

structure Assistants where
  text : Option Assistant
  speech : Option Assistant
deriving DecidableEq, Repr

/-- `AiAssistantPlugin.buildAssistants`: resolve each capability's normalized
slot (the per-rebuild slot cache only avoids duplicate construction and does
not change the resolved values). -/
def buildAssistants (s : Settings) : Assistants :=
  { text := resolveSlot s (normalizeProviderSlot (.num (.int s.textProvider)))
    speech := resolveSlot s (normalizeProviderSlot (.num (.int s.speechProvider))) }

/-! ## Spec-side definitions for refinement comparison -/

/-- Modelled from the spec: the host component of a URL — the text after the
`://` scheme separator, up to the first `/`, `?`, `#` or `:` (claim C4 speaks
of "the effective base URL's host"). -/
def specUrlHost (u : String) : String :=
  let rec afterScheme : List Char → List Char
    | ':' :: '/' :: '/' :: rest => rest
    | _ :: rest => afterScheme rest
    | [] => []
  ⟨(afterScheme u.data).takeWhile
    (fun c => !(c = '/' || c = '?' || c = '#' || c = ':'))⟩

/-- Modelled from the spec: "model identifiers matching the reasoning-model
naming pattern (o1-, o2-, o4-style prefixes)" — the identifier starts with
`o1`, `o2` or `o4` (claim C6). -/
def specReasoningStartsWith (model : String) : Bool :=
  List.isPrefixOf "o1".data model.data || List.isPrefixOf "o2".data model.data ||
    List.isPrefixOf "o4".data model.data

/-! ## Concrete fixtures used by witnesses and counterexamples -/

/-- A backend that accepts every request. -/
def bkOk : ChatParams → ApiOutcome := fun _ => .ok "ok"

/-- A mocked OpenAI-compatible backend that rejects any request carrying a
token-limit parameter with a `max_tokens` error message, and accepts the
rest. -/
def c1Backend : ChatParams → ApiOutcome := fun p =>
  if p.tokenParam.isSome then
    .error (.apiError "max_tokens is not supported by this model" none none)
  else .ok "retried ok"

/-- A settings value whose slot-1 API key is whitespace-only. -/
def settingsBlankKey : Settings :=
  { apiKey1 := "   ", apiBaseUrl1 := "", apiKey2 := "x2", apiBaseUrl2 := ""
    textProvider := 1, speechProvider := 2, modelName := ""
    speechModelName := "", maxTokens := .int 0, replaceSelection := true
    language := "" }

/-- A raw document whose `maxTokens` is a 401-digit numeral (1 followed by
400 zeros), beyond the binary64 range. -/
def hugeTokensRaw : RawData :=
  { emptyRaw with maxTokens := .str ⟨'1' :: List.replicate 400 '0'⟩ }

/-- A raw document whose `maxTokens` is the 23-digit numeral 1e22 — exactly
representable as a double, but rendered exponentially by `String()`. -/
def tenPow22Raw : RawData :=
  { emptyRaw with maxTokens := .str "10000000000000000000000" }

/-- An arbitrary settings value for factory counterexamples. -/
def plainSettings : Settings :=
  { apiKey1 := "k1", apiBaseUrl1 := "", apiKey2 := "", apiBaseUrl2 := ""
    textProvider := 1, speechProvider := 1, modelName := "gpt-4o-mini"
    speechModelName := "whisper-1", maxTokens := .int 0
    replaceSelection := true, language := "" }

/-! ## Supporting lemmas: trimming -/

theorem dropWhile_idem (p : Char → Bool) (l : List Char) :
    (l.dropWhile p).dropWhile p = l.dropWhile p := by
  induction l with
  | nil => rfl
  | cons a t ih =>
    by_cases h : p a
    · simp [List.dropWhile_cons, h, ih]
    · simp [List.dropWhile_cons, h]

theorem head?_dropWhile_not (p : Char → Bool) (l : List Char) :
    ∀ a, (l.dropWhile p).head? = some a → p a = false := by
  induction l with
  | nil => intro a h; simp at h
  | cons b t ih =>
    intro a h
    by_cases hb : p b
    · exact ih a (by simpa [List.dropWhile_cons, hb] using h)
    · simp [List.dropWhile_cons, hb] at h
      simpa [← h] using Bool.of_not_eq_true hb

theorem dropWhile_eq_self_of_head? (p : Char → Bool) (l : List Char)
    (h : ∀ a, l.head? = some a → p a = false) : l.dropWhile p = l := by
  cases l with
  | nil => rfl
  | cons a t => simp [List.dropWhile_cons, h a rfl]

theorem getLast?_dropWhile (p : Char → Bool) (l : List Char)
    (h : l.dropWhile p ≠ []) : (l.dropWhile p).getLast? = l.getLast? := by
  induction l with
  | nil => simp at h
  | cons a t ih =>
    by_cases ha : p a
    · cases t with
      | nil => simp [List.dropWhile_cons, ha, List.dropWhile] at h
      | cons b t2 =>
        have h2 : (b :: t2).dropWhile p ≠ [] := by
          simpa [List.dropWhile_cons, ha] using h
        rw [List.dropWhile_cons, if_pos ha, List.getLast?_cons_cons]
        exact ih h2
    · simp [List.dropWhile_cons, ha]

theorem jsTrimList_idem (l : List Char) : jsTrimList (jsTrimList l) = jsTrimList l := by
  have step1 :
      ((l.dropWhile Char.isWhitespace).reverse.dropWhile Char.isWhitespace).reverse.dropWhile
          Char.isWhitespace =
        ((l.dropWhile Char.isWhitespace).reverse.dropWhile Char.isWhitespace).reverse := by
    apply dropWhile_eq_self_of_head?
    intro a ha
    rw [List.head?_reverse] at ha
    by_cases hBnil :
        (l.dropWhile Char.isWhitespace).reverse.dropWhile Char.isWhitespace = []
    · simp [hBnil] at ha
    · have h1 := getLast?_dropWhile Char.isWhitespace
        (l.dropWhile Char.isWhitespace).reverse hBnil
      rw [List.getLast?_reverse] at h1
      exact head?_dropWhile_not Char.isWhitespace l a (by rw [← h1, ha])
  show jsTrimList (((l.dropWhile Char.isWhitespace).reverse.dropWhile
      Char.isWhitespace).reverse) = _
  unfold jsTrimList
  rw [step1, List.reverse_reverse, dropWhile_idem]

theorem jsTrim_idem (s : String) : jsTrim (jsTrim s) = jsTrim s :=
  congrArg String.mk (jsTrimList_idem s.data)

theorem jsTrim_jsCoerceTrim (v : JsVal) : jsTrim (jsCoerceTrim v) = jsCoerceTrim v := by
  cases v <;> simp [jsCoerceTrim] <;> first
    | decide
    | exact jsTrim_idem _

/-! ## Supporting lemmas: decimal printing and parsing -/

theorem digitChar_spec (d : Nat) (h : d < 10) :
    digitVal (digitChar d) = d ∧ (digitChar d).isDigit = true ∧
      Char.isWhitespace (digitChar d) = false ∧
      digitChar d ≠ '-' ∧ digitChar d ≠ '+' := by
  interval_cases d <;> decide

theorem digitsToNat_append_single (xs : List Char) (c : Char) :
    digitsToNat (xs ++ [c]) = digitsToNat xs * 10 + digitVal c := by
  simp [digitsToNat, List.foldl_append]

theorem natDigitsAux_spec (fuel : Nat) : ∀ n : Nat, n < fuel →
    digitsToNat (natDigitsAux fuel n) = n ∧
      natDigitsAux fuel n ≠ [] ∧
      ∀ c ∈ natDigitsAux fuel n, ∃ d, d < 10 ∧ c = digitChar d := by
  induction fuel with
  | zero => intro n h; omega
  | succ f ih =>
    intro n h
    by_cases h10 : n < 10
    · refine ⟨?_, ?_, ?_⟩
      · simp [natDigitsAux, h10, digitsToNat, (digitChar_spec n h10).1]
      · simp [natDigitsAux, h10]
      · intro c hc
        simp [natDigitsAux, h10] at hc
        exact ⟨n, h10, hc⟩
    · have hdiv : n / 10 < f := by omega
      obtain ⟨ih1, ih2, ih3⟩ := ih (n / 10) hdiv
      have hmod : n % 10 < 10 := by omega
      refine ⟨?_, ?_, ?_⟩
      · simp only [natDigitsAux, h10, if_false]
        rw [digitsToNat_append_single, ih1, (digitChar_spec (n % 10) hmod).1]
        omega
      · simp [natDigitsAux, h10]
      · intro c hc
        simp only [natDigitsAux, h10, if_false, List.mem_append,
          List.mem_singleton] at hc
        rcases hc with hc | hc
        · exact ih3 c hc
        · exact ⟨n % 10, hmod, hc⟩

theorem natDigits_spec (n : Nat) :
    digitsToNat (natDigits n) = n ∧ natDigits n ≠ [] ∧
      ∀ c ∈ natDigits n, ∃ d, d < 10 ∧ c = digitChar d :=
  natDigitsAux_spec (n + 1) n (by omega)

/-! ## Supporting lemmas: binary64 rounding -/

theorem bitLenAux_sandwich : ∀ fuel n, 0 < n → n < 2 ^ fuel →
    2 ^ (bitLenAux fuel n - 1) ≤ n ∧ n < 2 ^ bitLenAux fuel n := by
  intro fuel
  induction fuel with
  | zero =>
    intro n h0 h1
    simp at h1
    omega
  | succ f ih =>
    intro n h0 h1
    have hne : n ≠ 0 := by omega
    show 2 ^ ((if n = 0 then 0 else bitLenAux f (n / 2) + 1) - 1) ≤ n ∧
      n < 2 ^ (if n = 0 then 0 else bitLenAux f (n / 2) + 1)
    rw [if_neg hne]
    by_cases h2 : n = 1
    · subst h2
      have hz : bitLenAux f 0 = 0 := by cases f <;> rfl
      simp [hz]
    · have hn2 : 2 ≤ n := by omega
      have hp : (2 : Nat) ^ (f + 1) = 2 ^ f * 2 := pow_succ 2 f
      have hdiv0 : 0 < n / 2 := by omega
      have hdivf : n / 2 < 2 ^ f := by omega
      obtain ⟨ihl, ihr⟩ := ih (n / 2) hdiv0 hdivf
      have hB : 1 ≤ bitLenAux f (n / 2) := by
        by_contra hb
        have : bitLenAux f (n / 2) = 0 := by omega
        rw [this] at ihr
        simp at ihr
        omega
      have e1 : (2 : Nat) ^ bitLenAux f (n / 2) = 2 ^ (bitLenAux f (n / 2) - 1) * 2 := by
        rw [← pow_succ]
        congr 1
        omega
      have e2 : (2 : Nat) ^ (bitLenAux f (n / 2) + 1) = 2 ^ bitLenAux f (n / 2) * 2 :=
        pow_succ 2 _
      constructor
      · simp only [Nat.add_sub_cancel]
        omega
      · omega

theorem digitVal_lt_pow32 (c : Char) : digitVal c < 4294967296 := by
  have h : c.toNat = c.val.toNat := rfl
  have := c.val.toNat_lt
  unfold digitVal
  omega

theorem digitsToNat_lt (ds : List Char) : digitsToNat ds < 2 ^ (36 * ds.length) := by
  suffices h : ∀ a, List.foldl (fun a c => a * 10 + digitVal c) a ds + 1 ≤
      (a + 1) * 2 ^ (36 * ds.length) by
    have := h 0
    unfold digitsToNat
    omega
  induction ds with
  | nil =>
    intro a
    simp
  | cons c t ih =>
    intro a
    simp only [List.foldl_cons, List.length_cons]
    have step : a * 10 + digitVal c + 1 ≤ (a + 1) * 2 ^ 36 := by
      have hd := digitVal_lt_pow32 c
      have h36 : (2 : Nat) ^ 36 = 68719476736 := by norm_num
      nlinarith
    calc List.foldl (fun a c => a * 10 + digitVal c) (a * 10 + digitVal c) t + 1 ≤
        (a * 10 + digitVal c + 1) * 2 ^ (36 * t.length) := ih _
      _ ≤ ((a + 1) * 2 ^ 36) * 2 ^ (36 * t.length) :=
        Nat.mul_le_mul_right _ step
      _ = (a + 1) * 2 ^ (36 * (t.length + 1)) := by
        rw [mul_assoc, ← pow_add]
        congr 2
        omega

theorem roundHigh_exact (k q : Nat) (hk : 1 ≤ k) :
    roundHigh (53 + k) (q * 2 ^ k) =
      if q * 2 ^ k < 2 ^ 1024 then JsNum.int ((q * 2 ^ k : Nat) : Int)
      else .posInf := by
  unfold roundHigh
  dsimp only
  have h1 : 53 + k - 53 = k := by omega
  rw [h1]
  have h2 : q * 2 ^ k / 2 ^ k = q := Nat.mul_div_cancel q (Nat.two_pow_pos k)
  have h3 : q * 2 ^ k % 2 ^ k = 0 := Nat.mul_mod_left q (2 ^ k)
  rw [h2, h3]
  have h4 : ¬(2 ^ (k - 1) < 0 ∨ (0 = 2 ^ (k - 1) ∧ q % 2 = 1)) := by
    rintro (h | ⟨h, -⟩)
    · exact absurd h (Nat.not_lt_zero _)
    · exact absurd h.symm (Nat.pos_iff_ne_zero.mp (Nat.two_pow_pos _))
  rw [if_neg h4]

theorem bitLen_of_mul_pow (fuel k q : Nat) (_hk : 1 ≤ k) (hql : 2 ^ 52 ≤ q)
    (hqu : q < 2 ^ 53) (hf : q * 2 ^ k < 2 ^ fuel) :
    bitLenAux fuel (q * 2 ^ k) = 53 + k := by
  have hv0 : 0 < q * 2 ^ k := Nat.mul_pos (by omega) (Nat.two_pow_pos k)
  obtain ⟨hl, hr⟩ := bitLenAux_sandwich fuel (q * 2 ^ k) hv0 hf
  have hvl : 2 ^ (52 + k) ≤ q * 2 ^ k := by
    rw [pow_add]
    exact Nat.mul_le_mul_right _ hql
  have hvu : q * 2 ^ k < 2 ^ (53 + k) := by
    rw [pow_add]
    exact (Nat.mul_lt_mul_right (Nat.two_pow_pos k)).mpr hqu
  have hL0 : 0 < bitLenAux fuel (q * 2 ^ k) := by
    by_contra hb
    have hz : bitLenAux fuel (q * 2 ^ k) = 0 := by omega
    rw [hz] at hr
    simp at hr
    omega
  have c1 : bitLenAux fuel (q * 2 ^ k) - 1 < 53 + k :=
    (Nat.pow_lt_pow_iff_right (by omega)).mp (Nat.lt_of_le_of_lt hl hvu)
  have c2 : 52 + k < bitLenAux fuel (q * 2 ^ k) :=
    (Nat.pow_lt_pow_iff_right (by omega)).mp (Nat.lt_of_le_of_lt hvl hr)
  omega

theorem roundNatAux_fixed (fuel v : Nat) (hv : dblRepr v) (hf : v < 2 ^ fuel)
    (hb : v < 2 ^ 1024) : roundNatAux fuel v = .int v := by
  unfold roundNatAux
  by_cases h53 : v < 2 ^ 53
  · rw [if_pos h53]
  · rw [if_neg h53]
    rcases hv with h | ⟨q, k, hql, hqu, hk, rfl⟩
    · omega
    · rw [bitLen_of_mul_pow fuel k q hk hql hqu hf, roundHigh_exact k q hk,
        if_pos hb]

theorem dblRepr_of_mantissa (q2 k : Nat) (hlo : 2 ^ 52 ≤ q2) (hhi : q2 ≤ 2 ^ 53)
    (hk : 1 ≤ k) : dblRepr (q2 * 2 ^ k) := by
  by_cases hq2e : q2 = 2 ^ 53
  · right
    refine ⟨2 ^ 52, k + 1, le_refl _, ?_, by omega, ?_⟩
    · exact Nat.pow_lt_pow_right (by omega) (by omega)
    · rw [hq2e, pow_succ]
      ring
  · exact Or.inr ⟨q2, k, hlo, by omega, hk, rfl⟩

theorem roundNatAux_int (fuel n : Nat) (w : Int) (hf : n < 2 ^ fuel)
    (h : roundNatAux fuel n = .int w) :
    0 ≤ w ∧ dblRepr w.natAbs ∧ w.natAbs < 2 ^ 1024 := by
  unfold roundNatAux at h
  by_cases h53 : n < 2 ^ 53
  · rw [if_pos h53] at h
    injection h with h
    subst h
    refine ⟨by omega, ?_, ?_⟩
    · rw [Int.natAbs_ofNat]
      exact Or.inl h53
    · rw [Int.natAbs_ofNat]
      have hle : (2 : Nat) ^ 53 ≤ 2 ^ 1024 := Nat.pow_le_pow_right (by omega) (by omega)
      omega
  · rw [if_neg h53] at h
    have hn0 : 0 < n := by
      have := Nat.two_pow_pos 53
      omega
    obtain ⟨hl, hr⟩ := bitLenAux_sandwich fuel n hn0 hf
    have hL54 : 54 ≤ bitLenAux fuel n := by
      have h1 : (2 : Nat) ^ 53 ≤ n := by omega
      have h2 := (Nat.pow_lt_pow_iff_right (by omega : (1:Nat) < 2)).mp
        (Nat.lt_of_le_of_lt h1 hr)
      omega
    unfold roundHigh at h
    dsimp only at h
    have hk1 : 1 ≤ bitLenAux fuel n - 53 := by omega
    have hq_lo : 2 ^ 52 ≤ n / 2 ^ (bitLenAux fuel n - 53) := by
      rw [Nat.le_div_iff_mul_le (Nat.two_pow_pos _), ← pow_add]
      have he : 52 + (bitLenAux fuel n - 53) = bitLenAux fuel n - 1 := by omega
      rw [he]
      exact hl
    have hq_hi : n / 2 ^ (bitLenAux fuel n - 53) < 2 ^ 53 := by
      rw [Nat.div_lt_iff_lt_mul (Nat.two_pow_pos _), ← pow_add]
      have he : 53 + (bitLenAux fuel n - 53) = bitLenAux fuel n := by omega
      rw [he]
      exact hr
    split at h
    · split at h
      · rename_i hov
        injection h with h
        subst h
        refine ⟨by omega, ?_, ?_⟩
        · rw [Int.natAbs_ofNat]
          exact dblRepr_of_mantissa (n / 2 ^ (bitLenAux fuel n - 53) + 1)
            (bitLenAux fuel n - 53) (by omega) (by omega) hk1
        · rw [Int.natAbs_ofNat]
          exact hov
      · exact absurd h (by simp)
    · split at h
      · rename_i hov
        injection h with h
        subst h
        refine ⟨by omega, ?_, ?_⟩
        · rw [Int.natAbs_ofNat]
          exact dblRepr_of_mantissa (n / 2 ^ (bitLenAux fuel n - 53))
            (bitLenAux fuel n - 53) hq_lo (by omega) hk1
        · rw [Int.natAbs_ofNat]
          exact hov
      · exact absurd h (by simp)

/-! ## Supporting lemmas: parsing and printing round-trip -/

theorem jsParseIntCore_digits (ds : List Char) (hne : ds ≠ [])
    (hdig : ∀ c ∈ ds, c.isDigit = true) :
    jsParseIntCore false ds =
      roundNatAux (36 * ds.length + 1) (digitsToNat ds) := by
  unfold jsParseIntCore
  have htake : ds.takeWhile Char.isDigit = ds := by
    rw [List.takeWhile_eq_self_iff]
    exact hdig
  rw [htake]
  rw [if_neg (by simpa [List.isEmpty_iff] using hne)]
  rcases hr : roundNatAux (36 * ds.length + 1) (digitsToNat ds) with - | - | - | v
  · rfl
  · rfl
  · rfl
  · simp

theorem jsParseInt_natRepr (v : Nat) (hv : dblRepr v) (hb : v < 2 ^ 1024) :
    jsParseInt (natRepr v) = .int (v : Int) := by
  obtain ⟨h1, h2, h3⟩ := natDigits_spec v
  have hchar : ∀ a ∈ natDigits v,
      Char.isWhitespace a = false ∧ a.isDigit = true ∧ a ≠ '-' ∧ a ≠ '+' := by
    intro a ha
    obtain ⟨d, hd, rfl⟩ := h3 a ha
    obtain ⟨-, hdig, hws, hminus, hplus⟩ := digitChar_spec d hd
    exact ⟨hws, hdig, hminus, hplus⟩
  have hrepr : (natRepr v).data = natDigits v := rfl
  have hdrop : (natDigits v).dropWhile Char.isWhitespace = natDigits v := by
    apply dropWhile_eq_self_of_head?
    intro a ha
    cases hnn : natDigits v with
    | nil => simp [hnn] at ha
    | cons b t =>
      rw [hnn] at ha
      simp at ha
      exact ha ▸ (hchar b (by simp [hnn])).1
  have hfin : digitsToNat (natDigits v) < 2 ^ (36 * (natDigits v).length + 1) := by
    have := digitsToNat_lt (natDigits v)
    have hmono : (2 : Nat) ^ (36 * (natDigits v).length) ≤
        2 ^ (36 * (natDigits v).length + 1) :=
      Nat.pow_le_pow_right (by omega) (by omega)
    omega
  cases hnn : natDigits v with
  | nil => exact absurd hnn h2
  | cons b t =>
    have hb1 := hchar b (by simp [hnn])
    unfold jsParseInt
    rw [hrepr, hdrop, hnn]
    simp only [List.head?_cons]
    rw [if_neg (by simpa using hb1.2.2.1), if_neg (by simpa using hb1.2.2.2)]
    rw [← hnn, jsParseIntCore_digits (natDigits v) h2 (fun c hc => (hchar c hc).2.1)]
    have hfv : v < 2 ^ (36 * (natDigits v).length + 1) := by
      have hthis := hfin
      rw [h1] at hthis
      exact hthis
    rw [h1, roundNatAux_fixed _ v hv hfv hb]

theorem jsParseInt_int_spec (s : String) (m : Int) (h : jsParseInt s = .int m) :
    dblRepr m.natAbs ∧ m.natAbs < 2 ^ 1024 := by
  have core : ∀ neg rest, jsParseIntCore neg rest = .int m →
      dblRepr m.natAbs ∧ m.natAbs < 2 ^ 1024 := by
    intro neg rest hc
    unfold jsParseIntCore at hc
    by_cases hemp : (rest.takeWhile Char.isDigit).isEmpty = true
    · rw [if_pos hemp] at hc
      exact absurd hc (by simp)
    · rw [if_neg hemp] at hc
      have hfuel : digitsToNat (rest.takeWhile Char.isDigit) <
          2 ^ (36 * (rest.takeWhile Char.isDigit).length + 1) := by
        have := digitsToNat_lt (rest.takeWhile Char.isDigit)
        have hmono : (2 : Nat) ^ (36 * (rest.takeWhile Char.isDigit).length) ≤
            2 ^ (36 * (rest.takeWhile Char.isDigit).length + 1) :=
          Nat.pow_le_pow_right (by omega) (by omega)
        omega
      rcases hr : roundNatAux (36 * (rest.takeWhile Char.isDigit).length + 1)
          (digitsToNat (rest.takeWhile Char.isDigit)) with - | - | - | v
      · rw [hr] at hc
        exact absurd hc (by simp)
      · rw [hr] at hc
        cases neg <;> simp at hc
      · rw [hr] at hc
        exact absurd hc (by simp)
      · rw [hr] at hc
        obtain ⟨hpos, hrepr, hlt⟩ := roundNatAux_int _ _ v hfuel hr
        cases neg <;> simp at hc <;> rw [← hc]
        · exact ⟨hrepr, hlt⟩
        · rw [Int.natAbs_neg]
          exact ⟨hrepr, hlt⟩
  unfold jsParseInt at h
  by_cases hm : (s.data.dropWhile Char.isWhitespace).head? = some '-'
  · rw [if_pos hm] at h
    exact core true _ h
  · rw [if_neg hm] at h
    by_cases hp2 : (s.data.dropWhile Char.isWhitespace).head? = some '+'
    · rw [if_pos hp2] at h
      exact core false _ h
    · rw [if_neg hp2] at h
      exact core false _ h

/-! ## Supporting lemmas: migration normal forms -/

theorem normalizeProviderSlot_one_or_two (v : JsVal) :
    normalizeProviderSlot v = 1 ∨ normalizeProviderSlot v = 2 := by
  unfold normalizeProviderSlot
  rcases jsParseInt (jsToString (jsNullishEmpty v)) with - | - | - | n
  · exact Or.inl rfl
  · exact Or.inl rfl
  · exact Or.inl rfl
  · by_cases h : n = 2 <;> simp [h]

/-- After migration `maxTokens` is +Infinity (an overflowing parse) or a
non-negative integer that is an exactly representable binary64 value below
the overflow threshold. -/
theorem migMaxTokens_spec (d : RawData) :
    migMaxTokens d = .posInf ∨
      ∃ v : Nat, migMaxTokens d = .int (v : Int) ∧ dblRepr v ∧ v < 2 ^ 1024 := by
  unfold migMaxTokens
  rcases hp : jsParseInt (jsToString (jsNullishEmpty d.maxTokens)) with - | - | - | n
  · right
    refine ⟨0, rfl, Or.inl (Nat.two_pow_pos 53), Nat.two_pow_pos 1024⟩
  · left
    rfl
  · right
    refine ⟨0, rfl, Or.inl (Nat.two_pow_pos 53), Nat.two_pow_pos 1024⟩
  · by_cases hn : n < 0
    · right
      refine ⟨0, ?_, Or.inl (Nat.two_pow_pos 53), Nat.two_pow_pos 1024⟩
      show (if n < 0 then JsNum.int DEFAULT_MAX_TOKENS else JsNum.int n) =
        JsNum.int ((0 : Nat) : Int)
      rw [if_pos hn]
      rfl
    · right
      obtain ⟨hrepr, hlt⟩ := jsParseInt_int_spec _ n hp
      refine ⟨n.natAbs, ?_, hrepr, hlt⟩
      show (if n < 0 then JsNum.int DEFAULT_MAX_TOKENS else JsNum.int n) =
        JsNum.int (n.natAbs : Int)
      rw [if_neg hn]
      congr 1
      omega

theorem default_speech_model_nonempty : DEFAULT_SPEECH_MODEL ≠ "" := by decide

theorem migSpeechModel_ne_empty (d : RawData) : migSpeechModel d ≠ "" := by
  unfold migSpeechModel
  cases d.speechModelName with
  | str s =>
    by_cases hs : s = ""
    · simpa [hs] using default_speech_model_nonempty
    · simp [hs]
  | undef => exact default_speech_model_nonempty
  | null => exact default_speech_model_nonempty
  | num n => exact default_speech_model_nonempty
  | boolean b => exact default_speech_model_nonempty

theorem migBase1_ne_empty (d : RawData) : migBase1 d ≠ "" := by
  unfold migBase1
  by_cases h : jsCoerceTrim (match d.apiBaseUrl1 with
    | .str s => JsVal.str s
    | _ => JsVal.str (legacyBaseOf d)) = ""
  · simp [h]
    decide
  · simp [h]

theorem migKey1_migrate (d : RawData) : migKey1 (migrateSettings d) = migKey1 d := by
  show jsTrim (migKey1 d) = migKey1 d
  unfold migKey1
  exact jsTrim_jsCoerceTrim _

theorem migKey2_migrate (d : RawData) : migKey2 (migrateSettings d) = migKey2 d := by
  show jsTrim (migKey2 d) = migKey2 d
  unfold migKey2
  exact jsTrim_jsCoerceTrim _

theorem migBase1_migrate (d : RawData) : migBase1 (migrateSettings d) = migBase1 d := by
  show (if jsTrim (migBase1 d) = "" then DEFAULT_API_BASE_URL else jsTrim (migBase1 d)) =
    migBase1 d
  have htrim : jsTrim (migBase1 d) = migBase1 d := by
    unfold migBase1
    by_cases h : jsCoerceTrim (match d.apiBaseUrl1 with
      | .str s => JsVal.str s
      | _ => JsVal.str (legacyBaseOf d)) = "" <;>
      simp only [h, if_true, if_false, ite_true, ite_false]
    · decide
    · exact jsTrim_jsCoerceTrim _
  rw [htrim, if_neg (migBase1_ne_empty d)]

theorem migBase2_migrate (d : RawData) : migBase2 (migrateSettings d) = migBase2 d := by
  show jsTrim (migBase2 d) = migBase2 d
  unfold migBase2
  exact jsTrim_jsCoerceTrim _

theorem migSpeechModel_migrate (d : RawData) :
    migSpeechModel (migrateSettings d) = migSpeechModel d := by
  show (if migSpeechModel d = "" then DEFAULT_SPEECH_MODEL else migSpeechModel d) =
    migSpeechModel d
  rw [if_neg (migSpeechModel_ne_empty d)]

/-- A second migration leaves `maxTokens` unchanged when the migrated value
is a finite integer below 1e21: `String()` renders it positionally and
`parseInt` maps the rendering back to the same stored double. (At 1e21 and
beyond `String()` switches to exponential notation, which `parseInt`
truncates at the `e` — the idempotence failure claim C10 is corrected
for.) -/
theorem migMaxTokens_migrate_small (d : RawData) (v : Nat)
    (hv : migMaxTokens d = .int (v : Int)) (hsmall : v < 10 ^ 21) :
    migMaxTokens (migrateSettings d) = migMaxTokens d := by
  obtain ⟨hrepr, hlt⟩ : dblRepr v ∧ v < 2 ^ 1024 := by
    rcases migMaxTokens_spec d with h | ⟨w, hw, hwr, hwl⟩
    · rw [h] at hv
      exact absurd hv (by simp)
    · rw [hw] at hv
      injection hv with hv2
      have hwv : w = v := by exact_mod_cast hv2
      subst hwv
      exact ⟨hwr, hwl⟩
  have hmig : (migrateSettings d).maxTokens = .num (.int (v : Int)) := by
    show JsVal.num (migMaxTokens d) = _
    rw [hv]
  unfold migMaxTokens
  rw [hmig]
  have hstr : jsToString (jsNullishEmpty (.num (.int (v : Int)))) = natRepr v := by
    show jsNumToString (.int (v : Int)) = natRepr v
    show (if (v : Int) < 0 then "-" ++ natNumRepr ((v : Int)).natAbs
      else natNumRepr ((v : Int)).natAbs) = natRepr v
    rw [if_neg (by omega), Int.natAbs_ofNat]
    unfold natNumRepr
    rw [if_pos hsmall]
  rw [hstr, jsParseInt_natRepr v hrepr hlt]
  show (if (v : Int) < 0 then JsNum.int DEFAULT_MAX_TOKENS else JsNum.int (v : Int)) =
    migMaxTokens d
  rw [if_neg (by omega), hv]

theorem normalizeProviderSlot_migrate (v : JsVal) :
    normalizeProviderSlot (.num (.int (normalizeProviderSlot v))) =
      normalizeProviderSlot v := by
  rcases normalizeProviderSlot_one_or_two v with h | h <;> rw [h] <;> decide

/-! ## Supporting lemmas: streaming aggregation -/

theorem streamLoop_spec (chunks : List (Option String)) : ∀ acc : String,
    streamLoop chunks acc acc =
      (acc ++ sjoin (chunks.filterMap id), acc ++ sjoin (chunks.filterMap id)) := by
  induction chunks with
  | nil => intro acc; simp [streamLoop, sjoin]
  | cons c rest ih =>
    intro acc
    cases c with
    | none => simpa [streamLoop, sjoin] using ih acc
    | some content =>
      by_cases hc : content = ""
      · subst hc
        simpa [streamLoop, sjoin] using ih acc
      · simp only [streamLoop, if_neg hc, List.filterMap_cons, sjoin, Option.some.injEq]
        rw [ih (acc ++ content)]
        simp [String.append_assoc]

/-! ## Supporting lemmas: the retry loop -/

/-- Whatever the backend does, the first request sent is the one built with
`omitMaxTokens = !includeMaxTokens`. -/
theorem text_api_call_head (a : OpenAIAssistant) (msgs : List ChatMsg)
    (stream : Bool) (backend : ChatParams → ApiOutcome) :
    (a.text_api_call msgs stream backend).attempts.head? =
      some (a.requestParams msgs stream (!includeMaxTokens a.maxTokens)) := by
  unfold OpenAIAssistant.text_api_call
  dsimp only
  cases backend (a.requestParams msgs stream (!includeMaxTokens a.maxTokens)) with
  | ok s => rfl
  | error e =>
    dsimp only
    split
    · cases backend (a.requestParams msgs stream true) <;> rfl
    · rfl

/-! ## Claim theorems -/

/-- Claim C5: slot normalization parses the value as an integer (after
`?? ""` coalescing and `String(...)` conversion) and returns 2 exactly when
the parsed integer is 2, returning 1 on every other input; in particular
`normalizeSlot(2) = 2`, `normalizeSlot("2") = 2`, `normalizeSlot(3) = 1`,
`normalizeSlot(undefined) = 1`. -/
theorem claim_C5 :
    (∀ v : JsVal,
      (normalizeProviderSlot v = 1 ∨ normalizeProviderSlot v = 2) ∧
      (normalizeProviderSlot v = 2 ↔
        jsParseInt (jsToString (jsNullishEmpty v)) = .int 2)) ∧
    normalizeProviderSlot (.num (.int 2)) = 2 ∧
    normalizeProviderSlot (.str "2") = 2 ∧
    normalizeProviderSlot (.num (.int 3)) = 1 ∧
    normalizeProviderSlot .undef = 1 := by
  refine ⟨?_, by decide, by decide, by decide, by decide⟩
  intro v
  refine ⟨normalizeProviderSlot_one_or_two v, ?_⟩
  unfold normalizeProviderSlot
  rcases h : jsParseInt (jsToString (jsNullishEmpty v)) with - | - | - | n
  · simp
  · simp
  · simp
  · by_cases hn : n = 2 <;> simp [hn]

set_option maxRecDepth 100000 in
/-- Claim C2 counterexample: a raw `maxTokens` of 1 followed by 400 zeros
parses beyond the binary64 range, so migration + default-merge stores
`maxTokens = Infinity` — not an integer — refuting the universally
quantified integer invariant. -/
theorem claim_C2_counterexample :
    (loadSettings (some hugeTokensRaw)).maxTokens = .num .posInf ∧
    ¬∃ n : Int, (loadSettings (some hugeTokensRaw)).maxTokens = .num (.int n) := by
  constructor
  · decide
  · rintro ⟨n, hn⟩
    rw [show (loadSettings (some hugeTokensRaw)).maxTokens = .num .posInf
      from by decide] at hn
    exact absurd hn (by simp)

/-- Claim C2 amended: for every raw input (absent or with arbitrary field
values), migration followed by default-merge yields string key and URL
slots, a non-empty `apiBaseUrl1`, provider slots exactly 1 or 2, and a
`maxTokens` that is never NaN and never negative: either a non-negative
integer, or +Infinity when the raw value parses beyond the double range. -/
theorem claim_C2_amended (d : Option RawData) :
    (∃ s, (loadSettings d).apiKey1 = .str s) ∧
    (∃ s, (loadSettings d).apiKey2 = .str s) ∧
    (∃ s, (loadSettings d).apiBaseUrl1 = .str s ∧ s ≠ "") ∧
    (∃ s, (loadSettings d).apiBaseUrl2 = .str s) ∧
    ((loadSettings d).textProvider = .num (.int 1) ∨
      (loadSettings d).textProvider = .num (.int 2)) ∧
    ((loadSettings d).speechProvider = .num (.int 1) ∨
      (loadSettings d).speechProvider = .num (.int 2)) ∧
    ((loadSettings d).maxTokens = .num .posInf ∨
      ∃ n : Int, (loadSettings d).maxTokens = .num (.int n) ∧ 0 ≤ n) := by
  cases d with
  | none =>
    exact ⟨⟨"", rfl⟩, ⟨"", rfl⟩, ⟨DEFAULT_API_BASE_URL, rfl, by decide⟩, ⟨"", rfl⟩,
      Or.inl rfl, Or.inl rfl, Or.inr ⟨0, rfl, le_refl 0⟩⟩
  | some dd =>
    refine ⟨⟨migKey1 dd, ?_⟩, ⟨migKey2 dd, ?_⟩,
      ⟨migBase1 dd, ?_, migBase1_ne_empty dd⟩, ⟨migBase2 dd, ?_⟩, ?_, ?_, ?_⟩ <;>
      simp only [loadSettings, migrateSettingsOpt, mergeOverDefaults,
        migrateSettings, mergeField, reduceCtorEq, if_false]
    · rcases normalizeProviderSlot_one_or_two dd.textProvider with h | h <;>
        rw [h] <;> simp
    · rcases normalizeProviderSlot_one_or_two dd.speechProvider with h | h <;>
        rw [h] <;> simp
    · rcases migMaxTokens_spec dd with h | ⟨v, hv, -, -⟩
      · rw [h]
        exact Or.inl rfl
      · rw [hv]
        exact Or.inr ⟨(v : Int), rfl, by omega⟩

set_option maxRecDepth 100000 in
/-- Claim C10 counterexample: at raw `maxTokens = "10000000000000000000000"`
(1e22, exactly representable), the first migration stores the integer 1e22
but `String()` renders it as "1e+22", whose `parseInt` is 1 — so a second
migration changes the document and migration is not idempotent. -/
theorem claim_C10_counterexample :
    migrateSettings (migrateSettings tenPow22Raw) ≠ migrateSettings tenPow22Raw ∧
    (migrateSettings tenPow22Raw).maxTokens =
      .num (.int 10000000000000000000000) ∧
    (migrateSettings (migrateSettings tenPow22Raw)).maxTokens = .num (.int 1) := by
  refine ⟨?_, by decide, by decide⟩
  intro h
  have h2 := congrArg RawData.maxTokens h
  rw [show (migrateSettings (migrateSettings tenPow22Raw)).maxTokens =
      .num (.int 1) from by decide,
    show (migrateSettings tenPow22Raw).maxTokens =
      .num (.int 10000000000000000000000) from by decide] at h2
  exact absurd h2 (by decide)

/-- Claim C10 amended: a second migration agrees with the first on every
field except possibly `maxTokens`, and is fully idempotent whenever the
migrated `maxTokens` is a finite integer below 1e21 (from 1e21 on,
`String()` switches to exponential notation, which re-parsing truncates);
in particular re-loading an already-migrated settings object with an
in-range token limit leaves every field unchanged. -/
theorem claim_C10_amended (d : RawData) :
    migrateSettings (migrateSettings d) =
      { migrateSettings d with
        maxTokens := (migrateSettings (migrateSettings d)).maxTokens } ∧
    (∀ v : Nat, (migrateSettings d).maxTokens = .num (.int (v : Int)) →
      v < 10 ^ 21 → migrateSettings (migrateSettings d) = migrateSettings d) := by
  constructor
  · ext
    · exact congrArg JsVal.str (migKey1_migrate d)
    · exact congrArg JsVal.str (migKey2_migrate d)
    · exact congrArg JsVal.str (migBase1_migrate d)
    · exact congrArg JsVal.str (migBase2_migrate d)
    · exact congrArg (fun n : Nat => JsVal.num (.int n))
        (normalizeProviderSlot_migrate d.textProvider)
    · exact congrArg (fun n : Nat => JsVal.num (.int n))
        (normalizeProviderSlot_migrate d.speechProvider)
    · rfl
    · exact congrArg JsVal.str (migSpeechModel_migrate d)
    · rfl
    · rfl
    · rfl
    · rfl
    · rfl
    · rfl
    · rfl
    · rfl
    · rfl
    · rfl
    · rfl
    · rfl
    · rfl
  · intro v hv hsmall
    have hmm : migMaxTokens d = .int (v : Int) := by
      injection (show JsVal.num (migMaxTokens d) = .num (.int (v : Int)) from hv)
    ext
    · exact congrArg JsVal.str (migKey1_migrate d)
    · exact congrArg JsVal.str (migKey2_migrate d)
    · exact congrArg JsVal.str (migBase1_migrate d)
    · exact congrArg JsVal.str (migBase2_migrate d)
    · exact congrArg (fun n : Nat => JsVal.num (.int n))
        (normalizeProviderSlot_migrate d.textProvider)
    · exact congrArg (fun n : Nat => JsVal.num (.int n))
        (normalizeProviderSlot_migrate d.speechProvider)
    · rfl
    · exact congrArg JsVal.str (migSpeechModel_migrate d)
    · exact congrArg JsVal.num (migMaxTokens_migrate_small d v hmm hsmall)
    · rfl
    · rfl
    · rfl
    · rfl
    · rfl
    · rfl
    · rfl
    · rfl
    · rfl
    · rfl
    · rfl
    · rfl

/-- Claim C10 amended, witness: the empty document's migration (token limit
0) is a fixed point of a second migration. -/
theorem claim_C10_witness :
    migrateSettings (migrateSettings emptyRaw) = migrateSettings emptyRaw :=
  (claim_C10_amended emptyRaw).2 0 (by decide) (by decide)

/-- Claim C7: in streaming mode the render target starts cleared, holds the
concatenation of all fragments received so far after each chunk, and the
returned value is the full concatenation; for fragments "Hel" then "lo" the
rendered and returned values are both "Hello". -/
theorem claim_C7 (chunks : List (Option String)) :
    renderedAfter chunks 0 = "" ∧
    (∀ i : Nat, renderedAfter chunks i = sjoin ((chunks.take i).filterMap id)) ∧
    streamReturn chunks = sjoin (chunks.filterMap id) ∧
    streamReturn [some "Hel", some "lo"] = "Hello" ∧
    (streamLoop [some "Hel", some "lo"] "" "").1 = "Hello" := by
  refine ⟨rfl, ?_, ?_, by decide, by decide⟩
  · intro i
    unfold renderedAfter
    rw [streamLoop_spec]
    exact rfl
  · unfold streamReturn
    rw [streamLoop_spec]
    exact rfl

/-- Claim C8: the claim says a blank base URL gives the Anthropic assistant
the Anthropic API root; the constructor instead receives the
OpenAI-compatible default from `normalizeBaseUrl` (which substitutes it
before the Anthropic fallback can apply), so a blank input yields
`https://api.openai.com/v1`. -/
theorem claim_C8_code_behavior :
    (AnthropicAssistant.make "key" "" "" (.int 100)).baseUrl =
        "https://api.openai.com/v1" ∧
    (AnthropicAssistant.make "key" "   " "" (.int 100)).baseUrl ≠
        "https://api.anthropic.com/v1" := by decide

/-- Claim C4 counterexample: a URL whose host is `example.com` but whose path
contains `anthropic.com` makes the factory construct the Anthropic variant,
even though the URL's host does not match the Anthropic domain — so the
host-based claim is false. -/
theorem claim_C4_counterexample :
    (createAssistant plainSettings "key"
        "https://example.com/anthropic.com").isAnthropic = true ∧
    hasSubCI (specUrlHost "https://example.com/anthropic.com")
        "anthropic.com" = false := by decide

/-- Claim C4 amended: the factory constructs the Anthropic variant exactly
when the whole effective base URL (the given one, or the OpenAI-compatible
default when blank) contains `anthropic.com` case-insensitively anywhere —
not just in its host — and nothing besides the base URL influences the
decision. -/
theorem claim_C4_amended (s : Settings) (apiKey baseUrl : String) :
    (createAssistant s apiKey baseUrl).isAnthropic =
      hasSubCI (if baseUrl = "" then DEFAULT_API_BASE_URL else baseUrl)
        "anthropic.com" := by
  unfold createAssistant
  by_cases h : hasSubCI (if baseUrl = "" then DEFAULT_API_BASE_URL else baseUrl)
      "anthropic.com" <;>
    simp [h, Assistant.isAnthropic]

/-- Claim C3 counterexample: with `maxTokens = 0` the Anthropic assistant's
request body still carries a `max_tokens` member (with value 0), so the
claim that neither token-limit parameter is sent under both assistants is
false. -/
theorem claim_C3_counterexample :
    (AnthropicAssistant.make "key" "https://api.anthropic.com/v1" ""
        (.int 0)).maxTokens = .int 0 ∧
    ((((AnthropicAssistant.make "key" "https://api.anthropic.com/v1" ""
        (.int 0)).requestBody []).map Prod.fst).contains "max_tokens") = true := by
  decide

/-- Claim C3 amended: with `maxTokens = 0` the OpenAI-compatible assistant
omits both token-limit parameter names from every attempt's request body,
while the Anthropic assistant always includes `max_tokens` (whatever its
value) in its request body. -/
theorem claim_C3_amended (a : OpenAIAssistant) (msgs : List ChatMsg)
    (stream : Bool) (backend : ChatParams → ApiOutcome) (b : AnthropicAssistant) :
    (a.maxTokens = .int 0 →
      ((a.text_api_call msgs stream backend).attempts.all
        (fun p => p.tokenParam == none)) = true) ∧
    ("max_tokens", BodyVal.n b.maxTokens) ∈ b.requestBody msgs := by
  constructor
  · intro h
    have htp : ∀ o, tokenParamFor (a.effectiveModel msgs) a.maxTokens o = none := by
      intro o
      simp [tokenParamFor, h, includeMaxTokens]
    have hp : ∀ o, (a.requestParams msgs stream o).tokenParam = none := fun o => htp o
    unfold OpenAIAssistant.text_api_call
    dsimp only
    cases hb : backend (a.requestParams msgs stream (!includeMaxTokens a.maxTokens)) with
    | ok s => simp [hp]
    | error e =>
      dsimp only
      split
      · cases hb2 : backend (a.requestParams msgs stream true) with
        | ok s2 => simp [hp]
        | error e2 => simp [hp]
      · simp [hp]
  · simp [AnthropicAssistant.requestBody]

/-- Claim C3 amended, witness: a concrete OpenAI-compatible call with
`maxTokens = 0` whose attempts all omit the token-limit parameter. -/
theorem claim_C3_witness :
    (((OpenAIAssistant.make "key" "" "gpt-4o-mini" (.int 0) "").text_api_call
        [] false bkOk).attempts.all (fun p => p.tokenParam == none)) = true :=
  (claim_C3_amended (OpenAIAssistant.make "key" "" "gpt-4o-mini" (.int 0) "")
    [] false bkOk (AnthropicAssistant.make "key" "" "" (.int 0))).1 rfl

/-- Claim C9: a capability whose configured slot has a blank or
whitespace-only API key resolves to absent in the rebuilt capability map
(no assistant is constructed for it, and no error is raised — the resolver
simply returns the absent value). -/
theorem claim_C9 (s : Settings) :
    (jsTrim (slotApiKey s (normalizeProviderSlot (.num (.int s.textProvider)))) = "" →
      (buildAssistants s).text = none) ∧
    (jsTrim (slotApiKey s (normalizeProviderSlot (.num (.int s.speechProvider)))) = "" →
      (buildAssistants s).speech = none) := by
  constructor <;> intro h <;>
    simp [buildAssistants, resolveSlot, getProviderConfig, h]

/-- Claim C9 witness: a settings value whose slot-1 key is whitespace-only
resolves the text capability to absent. -/
theorem claim_C9_witness : (buildAssistants settingsBlankKey).text = none :=
  (claim_C9 settingsBlankKey).1 (by decide)

/-- Claim C6 counterexample: the model identifier "turbo1" does not start
with an o1/o2/o4 prefix, yet the call names its token-limit parameter
`max_completion_tokens`, because the code's reasoning-model test
`/o[124]/` is a substring match ("turbo1" contains "o1"). -/
theorem claim_C6_counterexample :
    ((OpenAIAssistant.make "key" "" "turbo1" (.int 500) "").text_api_call
        [] false bkOk).attempts.map (fun p => p.tokenParam) =
      [some ("max_completion_tokens", 500)] ∧
    specReasoningStartsWith "turbo1" = false := by decide

/-- Claim C6 amended: the token-limit parameter is included in the initial
request exactly when the configured limit is a finite value strictly greater
than 0, and when included it is named `max_completion_tokens` exactly for
model identifiers containing `o1`, `o2` or `o4` as a case-sensitive
substring anywhere (not only as a prefix), and `max_tokens` otherwise. -/
theorem claim_C6_amended (a : OpenAIAssistant) (msgs : List ChatMsg)
    (stream : Bool) (backend : ChatParams → ApiOutcome) (p : ChatParams)
    (hp : (a.text_api_call msgs stream backend).attempts.head? = some p) :
    p.tokenParam.isSome = includeMaxTokens a.maxTokens ∧
    (includeMaxTokens a.maxTokens = true ↔
      ∃ n : Int, a.maxTokens = .int n ∧ 0 < n) ∧
    (∀ name v, p.tokenParam = some (name, v) →
      (name = if isReasoningModel (a.effectiveModel msgs) then
        "max_completion_tokens" else "max_tokens") ∧
      (isReasoningModel (a.effectiveModel msgs) =
        (hasSub (a.effectiveModel msgs) "o1" || hasSub (a.effectiveModel msgs) "o2" ||
          hasSub (a.effectiveModel msgs) "o4")) ∧
      a.maxTokens = .int v) := by
  rw [text_api_call_head] at hp
  injection hp with hp
  subst hp
  refine ⟨?_, ?_, ?_⟩
  · show (tokenParamFor (a.effectiveModel msgs) a.maxTokens
      (!includeMaxTokens a.maxTokens)).isSome = _
    rcases hmt : a.maxTokens with - | - | - | n
    · simp [tokenParamFor, includeMaxTokens]
    · simp [tokenParamFor, includeMaxTokens]
    · simp [tokenParamFor, includeMaxTokens]
    · by_cases hn : 0 < n <;> simp [tokenParamFor, includeMaxTokens, hn]
  · rcases hmt : a.maxTokens with - | - | - | n
    · simp [includeMaxTokens]
    · simp [includeMaxTokens]
    · simp [includeMaxTokens]
    · by_cases hn : 0 < n <;> simp [includeMaxTokens, hn]
  · intro name v h
    replace h : tokenParamFor (a.effectiveModel msgs) a.maxTokens
        (!includeMaxTokens a.maxTokens) = some (name, v) := h
    rcases hmt : a.maxTokens with - | - | - | n <;> rw [hmt] at h
    · simp [tokenParamFor, includeMaxTokens] at h
    · simp [tokenParamFor, includeMaxTokens] at h
    · simp [tokenParamFor, includeMaxTokens] at h
    · by_cases hn : 0 < n
      · simp [tokenParamFor, includeMaxTokens, hn] at h
        exact ⟨h.1.symm, rfl, congrArg JsNum.int h.2⟩
      · simp [tokenParamFor, includeMaxTokens, hn] at h

/-- Claim C6 amended, witness: a concrete call with model "o1-mini" and
limit 500 includes the parameter in its first request. -/
theorem claim_C6_witness :
    ((OpenAIAssistant.make "key" "" "o1-mini" (.int 500) "").requestParams
        [] false false).tokenParam.isSome = includeMaxTokens (JsNum.int 500) :=
  (claim_C6_amended (OpenAIAssistant.make "key" "" "o1-mini" (.int 500) "")
    [] false bkOk
    ((OpenAIAssistant.make "key" "" "o1-mini" (.int 500) "").requestParams
      [] false false)
    (by decide)).1

/-- Claim C1: when the token-limit parameter was included and the first
request fails with an error whose message/code/body matches
`max_tokens`/`max_completion_tokens` case-insensitively, the call retries
exactly once with the parameter omitted (succeeding on exactly the second
attempt against a backend that rejects only requests carrying it); any
other failure, or a failure of the retry, shows one notice and resolves to
an absent result without raising. -/
theorem claim_C1 (a : OpenAIAssistant) (msgs : List ChatMsg) (stream : Bool)
    (backend : ChatParams → ApiOutcome)
    (hinc : includeMaxTokens a.maxTokens = true) :
    ∀ e, backend (a.requestParams msgs stream false) = .error e →
      ((shouldRetryWithoutMaxTokens e = true →
        (a.text_api_call msgs stream backend).attempts =
          [a.requestParams msgs stream false, a.requestParams msgs stream true] ∧
        (a.requestParams msgs stream false).tokenParam ≠ none ∧
        (a.requestParams msgs stream true).tokenParam = none ∧
        (∀ s2, backend (a.requestParams msgs stream true) = .ok s2 →
          (a.text_api_call msgs stream backend).result = some s2 ∧
          (a.text_api_call msgs stream backend).notices = 0) ∧
        (∀ e2, backend (a.requestParams msgs stream true) = .error e2 →
          (a.text_api_call msgs stream backend).result = none ∧
          (a.text_api_call msgs stream backend).notices = 1)) ∧
      (shouldRetryWithoutMaxTokens e = false →
        (a.text_api_call msgs stream backend).result = none ∧
        (a.text_api_call msgs stream backend).attempts =
          [a.requestParams msgs stream false] ∧
        (a.text_api_call msgs stream backend).notices = 1)) := by
  intro e he
  have hp1 : (a.requestParams msgs stream false).tokenParam ≠ none := by
    show tokenParamFor (a.effectiveModel msgs) a.maxTokens false ≠ none
    rcases hmt : a.maxTokens with - | - | - | n <;> rw [hmt] at hinc
    · simp [includeMaxTokens] at hinc
    · simp [includeMaxTokens] at hinc
    · simp [includeMaxTokens] at hinc
    · have hn : 0 < n := by simpa [includeMaxTokens] using hinc
      simp [tokenParamFor, includeMaxTokens, hn]
  have hp2 : (a.requestParams msgs stream true).tokenParam = none := by
    show tokenParamFor (a.effectiveModel msgs) a.maxTokens true = none
    simp [tokenParamFor]
  constructor
  · intro hret
    have hcall : a.text_api_call msgs stream backend =
        match backend (a.requestParams msgs stream true) with
        | .ok s =>
          { result := some s
            attempts := [a.requestParams msgs stream false,
              a.requestParams msgs stream true]
            notices := 0 }
        | .error _ =>
          { result := none
            attempts := [a.requestParams msgs stream false,
              a.requestParams msgs stream true]
            notices := 1 } := by
      unfold OpenAIAssistant.text_api_call
      dsimp only
      rw [hinc]
      simp only [Bool.not_true]
      rw [he]
      simp [hret]
    refine ⟨?_, hp1, hp2, ?_, ?_⟩
    · rw [hcall]
      cases backend (a.requestParams msgs stream true) <;> rfl
    · intro s2 hok
      rw [hcall, hok]
      exact ⟨rfl, rfl⟩
    · intro e2 herr
      rw [hcall, herr]
      exact ⟨rfl, rfl⟩
  · intro hret
    have hcall : a.text_api_call msgs stream backend =
        { result := none, attempts := [a.requestParams msgs stream false]
          notices := 1 } := by
      unfold OpenAIAssistant.text_api_call
      dsimp only
      rw [hinc]
      simp only [Bool.not_true]
      rw [he]
      simp [hret]
    exact ⟨by rw [hcall], by rw [hcall], by rw [hcall]⟩

/-- Claim C1 witness: with `maxTokens = 500` against a mocked backend that
rejects any request carrying a token-limit parameter with a "max_tokens"
error message, the call resolves successfully (on the retry) with no
notice. -/
theorem claim_C1_witness :
    ((OpenAIAssistant.make "key" "" "my-model" (.int 500) "").text_api_call
        [] false c1Backend).result = some "retried ok" ∧
    ((OpenAIAssistant.make "key" "" "my-model" (.int 500) "").text_api_call
        [] false c1Backend).notices = 0 :=
  ((claim_C1 (OpenAIAssistant.make "key" "" "my-model" (.int 500) "") [] false
      c1Backend (by decide)
      (.apiError "max_tokens is not supported by this model" none none)
      (by decide)).1
    (by decide)).2.2.2.1 "retried ok" (by decide)

end MiniAssistant
